import Mathlib

/-!
# Grafana provider resource adapters: a shallow embedding

The adapters of `grafana/resource_team.go`, `grafana/resource_user.go` and
`grafana/resource_folder_permission.go` are translated into pure functions.

* Go strings are modelled by `String`; a Go `int`/`int64` is an `Int` that
  stays inside the 64-bit range (`int` is taken to be 64 bits wide).
* An adapter mutates its `*schema.ResourceData` in place and returns an
  `error`.  Here it takes the resource data and returns the data after the
  call, the client calls it issued (in order) and the returned error.
* The API client is a value of a `Client` structure: every method is a
  function of the calls made so far and of its arguments, so that the
  theorems range over every server behaviour.
-/

namespace Grafana

/-! ## strconv -/

/-- The `Err` field of a `*strconv.NumError`. -/
inductive NumErrKind
  | ErrSyntax
  | ErrRange
  deriving DecidableEq, Repr

/-- A `*strconv.NumError`: failing function, input string, reason. -/
structure NumError where
  Func : String
  Num : String
  Err : NumErrKind
  deriving DecidableEq, Repr

/-- An error value returned by the API client.  Only its message is observed
by the adapters (`err.Error()`). -/
structure ApiError where
  Error : String
  deriving DecidableEq, Repr

/-- Go `error` values that the adapters can return. -/
inductive GoError
  | api (e : ApiError)
  | num (e : NumError)
  deriving DecidableEq, Repr

def maxUint64 : Nat := 2 ^ 64 - 1

/-- The digit loop of `strconv.ParseUint(s, 10, 64)`: `n` is the value read so
far.  A byte that is not a decimal digit is a syntax error; a value above
`maxUint64` is a range error. -/
def parseUintLoop : List Char → Nat → Except NumErrKind Nat
  | [], n => .ok n
  | c :: cs, n =>
    if '0' ≤ c ∧ c ≤ '9' then
      let d := c.toNat - '0'.toNat
      if n ≥ maxUint64 / 10 + 1 then .error .ErrRange
      else if n * 10 + d > maxUint64 then .error .ErrRange
      else parseUintLoop cs (n * 10 + d)
    else .error .ErrSyntax

/-- Go `strconv.ParseUint(s, 10, 64)`, returning the value and the error kind. -/
def ParseUint (s : List Char) : Nat × Option NumErrKind :=
  if s = [] then (0, some .ErrSyntax)
  else
    match parseUintLoop s 0 with
    | .ok n => (n, none)
    | .error .ErrSyntax => (0, some .ErrSyntax)
    | .error .ErrRange => (maxUint64, some .ErrRange)

/-- Go `strconv.ParseInt(s, 10, 64)` with the function name `fn` recorded in
the error.  As in Go, a value is returned together with the error: `0` on a
syntax error and the nearest bound on a range error. -/
def parseIntAs (fn : String) (s : String) : Int × Option NumError :=
  match s.data with
  | [] => (0, some ⟨fn, s, .ErrSyntax⟩)
  | c :: cs =>
    let neg := c = '-'
    let rest := if c = '+' ∨ c = '-' then cs else c :: cs
    match ParseUint rest with
    | (_, some .ErrSyntax) => (0, some ⟨fn, s, .ErrSyntax⟩)
    | (un, _) =>
      let cutoff : Nat := 2 ^ 63
      if ¬ neg ∧ un ≥ cutoff then ((cutoff : Int) - 1, some ⟨fn, s, .ErrRange⟩)
      else if neg ∧ un > cutoff then (-(cutoff : Int), some ⟨fn, s, .ErrRange⟩)
      else (if neg then -(un : Int) else (un : Int), none)

/-- Go `strconv.ParseInt(s, 10, 64)`. -/
def ParseInt (s : String) : Int × Option NumError := parseIntAs "ParseInt" s

/-- Go `strconv.Atoi(s)` for a 64-bit `int`: the same value as
`ParseInt(s, 10, 0)`, the error naming `Atoi`. -/
def Atoi (s : String) : Int × Option NumError := parseIntAs "Atoi" s

/-- Decimal digits of `n`, most significant first; `fuel` bounds the number of
digits produced. -/
def natDigits : Nat → Nat → List Char
  | 0, _ => []
  | fuel + 1, n =>
    if n < 10 then [Char.ofNat (48 + n)]
    else natDigits fuel (n / 10) ++ [Char.ofNat (48 + n % 10)]

/-- Go `strconv.FormatInt(i, 10)` (and `strconv.Itoa`). -/
def FormatInt (i : Int) : String :=
  if i < 0 then ⟨'-' :: natDigits (i.natAbs + 1) i.natAbs⟩
  else ⟨natDigits (i.natAbs + 1) i.natAbs⟩

/-! ## Results of an adapter call -/

/-- What an adapter call leaves behind: the resource data after the call, the
client calls it issued, in order, and the returned error (`none` is `nil`). -/
structure Ret (σ κ : Type) where
  d : σ
  calls : List κ
  err : Option GoError

/-! ## Team resource (`resource_team.go`) -/

/-- The fields of `gapi.Team` that the adapter reads. -/
structure Team where
  Id : Int
  Name : String
  deriving DecidableEq, Repr

/-- The field of `gapi.TeamMember` that the adapter reads. -/
structure TeamMember where
  UserId : Int
  deriving DecidableEq, Repr

/-- The client calls made by the Team adapters modelled here. -/
inductive TeamCall
  | Team (id : Int)
  | UpdateTeam (id : String) (name : String)
  | TeamMembers (id : String)
  | AddTeamMember (id : String) (userId : Int)
  | RemoveTeamMember (id : String) (userId : Int)
  deriving DecidableEq, Repr

/-- The API client as seen by the Team adapters.  The first argument of every
method is the list of calls made before it. -/
structure TeamClient where
  Team : List TeamCall → Int → Except ApiError Team
  UpdateTeam : List TeamCall → String → String → Option ApiError
  TeamMembers : List TeamCall → String → Except ApiError (List TeamMember)
  AddTeamMember : List TeamCall → String → Int → Option ApiError
  RemoveTeamMember : List TeamCall → String → Int → Option ApiError

/-- The `*schema.ResourceData` of a Team: the stored identifier `d.Id()`, the
fields read with `d.Get` (`members` is `Set.List()`), and `d.HasChange`. -/
structure TeamData where
  id : String
  name : String
  members : List Int
  HasChange : String → Bool

/-- The key set of the Go map `memberMap` (`map[int64]bool`): a list of
distinct keys.  `memberMap[k] = true`. -/
def mapSet (m : List Int) (k : Int) : List Int :=
  if k ∈ m then m else m ++ [k]

/-- Go `delete(memberMap, k)`. -/
def mapDelete (m : List Int) (k : Int) : List Int :=
  m.filter (fun x => x ≠ k)

/-- Source `getTeamMembers`: the user ids of `client.TeamMembers(d.Id())`, the
calls issued and the error; the list is `nil` on error. -/
def getTeamMembers (c : TeamClient) (h : List TeamCall) (d : TeamData) :
    List Int × List TeamCall × Option ApiError :=
  match c.TeamMembers h d.id with
  | .error e => ([], [.TeamMembers d.id], some e)
  | .ok members => (members.map (fun member => member.UserId), [.TeamMembers d.id], none)

/-- The "Add members" loop of `UpdateTeam` over `members.List()`: returns the
map after the loop, the calls issued and the error that ended the loop. -/
def addMembers (c : TeamClient) (teamId : String) :
    List TeamCall → List Int → List Int → List Int × List TeamCall × Option ApiError
  | _, [], memberMap => (memberMap, [], none)
  | h, id :: rest, memberMap =>
    if id ∉ memberMap then
      match c.AddTeamMember h teamId id with
      | some e => (memberMap, [.AddTeamMember teamId id], some e)
      | none =>
        let r := addMembers c teamId (h ++ [.AddTeamMember teamId id]) rest (mapDelete memberMap id)
        (r.1, .AddTeamMember teamId id :: r.2.1, r.2.2)
    else addMembers c teamId h rest (mapDelete memberMap id)

/-- The "Remove members" loop of `UpdateTeam` over the keys of `memberMap`, in
the order in which the `range` visits them. -/
def removeMembers (c : TeamClient) (teamId : String) :
    List TeamCall → List Int → List TeamCall × Option ApiError
  | _, [] => ([], none)
  | h, userId :: rest =>
    match c.RemoveTeamMember h teamId userId with
    | some e => ([.RemoveTeamMember teamId userId], some e)
    | none =>
      let r := removeMembers c teamId (h ++ [.RemoveTeamMember teamId userId]) rest
      (.RemoveTeamMember teamId userId :: r.1, r.2)

/-- Source `UpdateTeam`.  `rangeOrder` is the order in which Go's `range`
visits the keys of a map, which the language leaves unspecified. -/
def UpdateTeam (rangeOrder : List Int → List Int) (c : TeamClient) (h : List TeamCall)
    (d : TeamData) : Ret TeamData TeamCall :=
  let teamId := d.id
  let nameStep : List TeamCall × Option ApiError :=
    if d.HasChange "name" then ([.UpdateTeam teamId d.name], c.UpdateTeam h teamId d.name)
    else ([], none)
  match nameStep.2 with
  | some e => ⟨d, nameStep.1, some (.api e)⟩
  | none =>
    match getTeamMembers c (h ++ nameStep.1) d with
    | (_, calls, some e) => ⟨d, nameStep.1 ++ calls, some (.api e)⟩
    | (memberList, calls, none) =>
      let memberMap := memberList.foldl mapSet []
      if d.HasChange "members" then
        match addMembers c d.id (h ++ nameStep.1 ++ calls) d.members memberMap with
        | (_, adds, some e) => ⟨d, nameStep.1 ++ calls ++ adds, some (.api e)⟩
        | (memberMap, adds, none) =>
          match removeMembers c d.id (h ++ nameStep.1 ++ calls ++ adds) (rangeOrder memberMap) with
          | (removes, some e) => ⟨d, nameStep.1 ++ calls ++ adds ++ removes, some (.api e)⟩
          | (removes, none) => ⟨d, nameStep.1 ++ calls ++ adds ++ removes, none⟩
      else ⟨d, nameStep.1 ++ calls, none⟩

/-- Source `ExistsTeam`: the result pair and the calls issued.  The parse
error of the identifier is discarded, as in the source. -/
def ExistsTeam (c : TeamClient) (h : List TeamCall) (d : TeamData) :
    (Bool × Option GoError) × List TeamCall :=
  let teamId := (ParseInt d.id).1
  match c.Team h teamId with
  | .error err =>
    if err.Error = "404 Not Found" then ((false, none), [.Team teamId])
    else ((false, some (.api err)), [.Team teamId])
  | .ok _ => ((true, none), [.Team teamId])

/-- Source `ReadTeam`.  `newSet` is `schema.NewSet` followed by `Set.List()`
for the hash function that `ReadTeam` passes. -/
def ReadTeam (newSet : List Int → List Int) (c : TeamClient) (h : List TeamCall)
    (d : TeamData) : Ret TeamData TeamCall :=
  match ParseInt d.id with
  | (_, some err) => ⟨d, [], some (.num err)⟩
  | (id, none) =>
    match c.Team h id with
    | .error err =>
      if err.Error = "404 Not Found" then ⟨{ d with id := "" }, [.Team id], none⟩
      else ⟨d, [.Team id], some (.api err)⟩
    | .ok team =>
      let d1 := { d with id := FormatInt team.Id, name := team.Name }
      let r := getTeamMembers c (h ++ [.Team id]) d1
      ⟨{ d1 with members := newSet r.1 }, .Team id :: r.2.1, none⟩

/-! ## User resource (`resource_user.go`) -/

/-- The Go struct `gapi.User`. -/
structure User where
  Id : Int
  Email : String
  Name : String
  Login : String
  Password : String
  IsAdmin : Bool
  deriving DecidableEq, Repr

/-- The client calls made by the User adapters modelled here. -/
inductive UserCall
  | CreateUser (user : User)
  | User (id : Int)
  deriving DecidableEq, Repr

/-- The API client as seen by the User adapters. -/
structure UserClient where
  CreateUser : List UserCall → User → Except ApiError Int
  User : List UserCall → Int → Except ApiError User

/-- The `*schema.ResourceData` of a User. -/
structure UserData where
  id : String
  login : String
  name : String
  email : String
  HasChange : String → Bool

/-- The constant `alphanum` of `GetRandomString`. -/
def alphanum : String := "0123456789ABCDEFGHIJKLMNOPQRSTUVWXYZabcdefghijklmnopqrstuvwxyz"

/-- The loop of `GetRandomString` over the random bytes.  A byte of a string is
modelled by its character.  `none` is a run-time panic: an index out of range,
or a division by `byte(len(alphabets)) = 0`. -/
def pickBytes (alphabets : List Char) : List Nat → Option (List Char)
  | [] => some []
  | b :: bs =>
    let ch : Option Char :=
      if alphabets.length = 0 then alphanum.data[b % (alphanum.length % 256)]?
      else if alphabets.length % 256 = 0 then none
      else alphabets[b % (alphabets.length % 256)]?
    match ch, pickBytes alphabets bs with
    | some x, some xs => some (x :: xs)
    | _, _ => none

/-- Source `GetRandomString`.  `rand i` is the `i`-th byte that `rand.Read`
leaves in the buffer; `none` is a panic (`make` with a negative length
included). -/
def GetRandomString (rand : Nat → Nat) (n : Int) (alphabets : List Char) : Option String :=
  if n < 0 then none
  else
    let bytes := (List.range n.toNat).map (fun i => rand i % 256)
    (pickBytes alphabets bytes).map String.mk

/-- Source `ReadUser`. -/
def ReadUser (c : UserClient) (h : List UserCall) (d : UserData) : Ret UserData UserCall :=
  match ParseInt d.id with
  | (_, some err) => ⟨d, [], some (.num err)⟩
  | (id, none) =>
    match c.User h id with
    | .error err =>
      if err.Error = "404 Not Found" then ⟨{ d with id := "" }, [.User id], none⟩
      else ⟨d, [.User id], some (.api err)⟩
    | .ok user =>
      ⟨{ d with id := FormatInt user.Id, name := user.Name, login := user.Login,
                email := user.Email }, [.User id], none⟩

/-- Source `CreateUser`; `none` is a panic. -/
def CreateUser (rand : Nat → Nat) (c : UserClient) (h : List UserCall) (d : UserData) :
    Option (Ret UserData UserCall) :=
  let user : User :=
    { Id := 0, Login := d.login, Email := d.email, Name := d.name, Password := "",
      IsAdmin := false }
  let withPassword : Option User :=
    if user.Password = "" then
      (GetRandomString rand 10 []).map (fun s => { user with Password := s })
    else some user
  match withPassword with
  | none => none
  | some user =>
    match c.CreateUser h user with
    | .error err => some ⟨d, [.CreateUser user], some (.api err)⟩
    | .ok userId =>
      let d1 := { d with id := FormatInt userId }
      let r := ReadUser c (h ++ [.CreateUser user]) d1
      some ⟨r.d, .CreateUser user :: r.calls, r.err⟩

/-- Source `ExistsUser`. -/
def ExistsUser (c : UserClient) (h : List UserCall) (d : UserData) :
    (Bool × Option GoError) × List UserCall :=
  let teamId := (ParseInt d.id).1
  match c.User h teamId with
  | .error err =>
    if err.Error = "404 Not Found" then ((false, none), [.User teamId])
    else ((false, some (.api err)), [.User teamId])
  | .ok _ => ((true, none), [.User teamId])

/-! ## FolderPermission resource (`resource_folder_permission.go`) -/

/-- The fields of `gapi.FolderPermission` that the adapter uses.  `P` is the
type `gapi.PermissionType`. -/
structure FolderPermission (P : Type) where
  Role : String
  TeamId : Int
  UserId : Int
  Permission : P
  deriving DecidableEq

/-- The two functions on `gapi.PermissionType` that the adapter calls; their
bodies belong to the client library. -/
structure PermissionApi (P : Type) where
  NewPermissionType : Int → Except ApiError P
  String : P → String

/-- One element of `items`: a Go `map[string]interface{}` whose values are
strings, as an association list.  A key that is not listed maps to `nil`. -/
abbrev Item := List (String × String)

/-- Go `item[k]`: `none` is `nil`. -/
def Item.get (item : Item) (k : String) : Option String :=
  (item.find? (fun kv => kv.1 = k)).map (fun kv => kv.2)

/-- Go `item[k] = v`. -/
def Item.set (item : Item) (k v : String) : Item :=
  item.filter (fun kv => kv.1 ≠ k) ++ [(k, v)]

/-- The client calls made by the FolderPermission adapters. -/
inductive FolderCall (P : Type)
  | GetFolderPermission (folderId : String)
  | UpdateFolderPermission (folderId : String) (folderPermission : List (FolderPermission P))
  deriving DecidableEq

/-- The API client as seen by the FolderPermission adapters. -/
structure FolderClient (P : Type) where
  GetFolderPermission : List (FolderCall P) → String → Except ApiError (List (FolderPermission P))
  UpdateFolderPermission :
    List (FolderCall P) → String → List (FolderPermission P) → Option ApiError

/-- The `*schema.ResourceData` of a FolderPermission. -/
structure FolderData where
  id : String
  folder_id : String
  items : List Item
  HasChange : String → Bool

/-- Result of a computation that can return an error or panic. -/
inductive Built (α : Type)
  | ok (a : α)
  | error (e : GoError)
  | panic

/-- The body of the loop of `CreateFolderPermission` for one item.  The type
assertion `item["permission"].(string)` panics on `nil`. -/
def buildPermission {P : Type} (api : PermissionApi P) (item : Item) :
    Built (FolderPermission P) :=
  let disc : Except GoError (String × Int × Int) :=
    match item.get "role" with
    | some role => .ok (role, 0, 0)
    | none =>
      match item.get "team_id" with
      | some s =>
        match Atoi s with
        | (_, some err) => .error (.num err)
        | (teamId, none) => .ok ("", teamId, 0)
      | none =>
        match item.get "user_id" with
        | some s =>
          match Atoi s with
          | (_, some err) => .error (.num err)
          | (userId, none) => .ok ("", 0, userId)
        | none => .ok ("", 0, 0)
  match disc with
  | .error err => .error err
  | .ok (role, teamId, userId) =>
    match item.get "permission" with
    | none => .panic
    | some s =>
      match Atoi s with
      | (_, some err) => .error (.num err)
      | (permId, none) =>
        match api.NewPermissionType permId with
        | .error err => .error (.api err)
        | .ok permission =>
          .ok { Role := role, TeamId := teamId, UserId := userId, Permission := permission }

/-- The loop of `CreateFolderPermission` over `items`. -/
def buildPermissions {P : Type} (api : PermissionApi P) :
    List Item → Built (List (FolderPermission P))
  | [] => .ok []
  | item :: rest =>
    match buildPermission api item with
    | .error err => .error err
    | .panic => .panic
    | .ok perm =>
      match buildPermissions api rest with
      | .error err => .error err
      | .panic => .panic
      | .ok perms => .ok (perm :: perms)

/-- Source `CreateFolderPermission`; `none` is a panic. -/
def CreateFolderPermission {P : Type} (api : PermissionApi P) (c : FolderClient P)
    (h : List (FolderCall P)) (d : FolderData) : Option (Ret FolderData (FolderCall P)) :=
  let folderId := d.folder_id
  match buildPermissions api d.items with
  | .panic => none
  | .error err => some ⟨d, [], some err⟩
  | .ok folderPermission =>
    match c.UpdateFolderPermission h folderId folderPermission with
    | some err => some ⟨d, [.UpdateFolderPermission folderId folderPermission], some (.api err)⟩
    | none =>
      some ⟨{ d with id := folderId }, [.UpdateFolderPermission folderId folderPermission], none⟩

/-- The body of the loop of `ReadFolderPermission` for one entry. -/
def readItem {P : Type} (api : PermissionApi P) (p : FolderPermission P) : Item :=
  let perm : Item :=
    if p.Role ≠ "" then Item.set [] "role" p.Role
    else if p.TeamId ≠ 0 then Item.set [] "team_id" (FormatInt p.TeamId)
    else if p.UserId ≠ 0 then Item.set [] "user_id" (FormatInt p.UserId)
    else []
  perm.set "permission" (api.String p.Permission)

/-- Source `ReadFolderPermission`.  `d.Set` stores the value it is given. -/
def ReadFolderPermission {P : Type} (api : PermissionApi P) (c : FolderClient P)
    (h : List (FolderCall P)) (d : FolderData) : Ret FolderData (FolderCall P) :=
  let folderId := d.id
  match c.GetFolderPermission h folderId with
  | .error err => ⟨d, [.GetFolderPermission folderId], some (.api err)⟩
  | .ok folderPermission =>
    let items := folderPermission.map (readItem api)
    ⟨{ d with id := folderId, folder_id := folderId, items := items },
      [.GetFolderPermission folderId], none⟩

/-- Source `UpdateFolderPermission`; `none` is a panic. -/
def UpdateFolderPermission {P : Type} (api : PermissionApi P) (c : FolderClient P)
    (h : List (FolderCall P)) (d : FolderData) : Option (Ret FolderData (FolderCall P)) :=
  if d.HasChange "items" then CreateFolderPermission api c h d
  else some ⟨d, [], none⟩

/-- Source `DeleteFolderPermission`. -/
def DeleteFolderPermission {P : Type} (c : FolderClient P) (h : List (FolderCall P))
    (d : FolderData) : Ret FolderData (FolderCall P) :=
  let folderId := d.id
  match c.UpdateFolderPermission h folderId [] with
  | some err => ⟨d, [.UpdateFolderPermission folderId []], some (.api err)⟩
  | none => ⟨{ d with id := "" }, [.UpdateFolderPermission folderId []], none⟩

/-- Source `ExistsFolderPermission`. -/
def ExistsFolderPermission {P : Type} (c : FolderClient P) (h : List (FolderCall P))
    (d : FolderData) : (Bool × Option GoError) × List (FolderCall P) :=
  let folderId := d.id
  match c.GetFolderPermission h folderId with
  | .error err =>
    if err.Error = "404 Not Found" then ((false, none), [.GetFolderPermission folderId])
    else ((false, some (.api err)), [.GetFolderPermission folderId])
  | .ok _ => ((true, none), [.GetFolderPermission folderId])

/-! ## Dashboard client (`go-grafana-api/dashboard.go`) -/

/-- A value of a decoded JSON object (`interface{}`): the client only asks
whether it is a string; any other value is kept as its JSON text. -/
inductive JsonValue
  | string (s : String)
  | other (raw : String)
  deriving DecidableEq, Repr

/-- A Go `map[string]interface{}`, as an association list. -/
abbrev JsonObject := List (String × JsonValue)

/-- The Go struct `DashboardMeta`. -/
structure DashboardMeta where
  IsStarred : Bool
  Slug : String
  Uid : String
  Folder : Int
  deriving DecidableEq, Repr

/-- The Go struct `DashboardSaveResponse`. -/
structure DashboardSaveResponse where
  Slug : String
  Id : Int
  Uid : String
  Status : String
  Version : Int
  deriving DecidableEq, Repr

/-- The Go struct `SearchResultItem`; `Type_` is its field `Type`. -/
structure SearchResultItem where
  Id : Int
  Uid : String
  Title : String
  Url : String
  Type_ : String
  Uri : String
  deriving DecidableEq, Repr

/-- The Go struct `Dashboard`. -/
structure Dashboard where
  Meta : DashboardMeta
  Model : JsonObject
  Folder : Int
  Overwrite : Bool
  deriving DecidableEq, Repr

/-- The Go struct `DashboardVersionItem`. -/
structure DashboardVersionItem where
  Id : Int
  Version : Int
  deriving DecidableEq, Repr

/-- An HTTP request as built by `c.newRequest(method, path, query, body)`; a
`nil` query is `[]` and a `nil` body is `none`. -/
structure Request where
  Method : String
  Path : String
  Query : List (String × String)
  Body : Option String
  deriving DecidableEq, Repr

/-- The fields of `*http.Response` that the client reads.  `Body` is what
`ioutil.ReadAll(resp.Body)` returns: the bytes read and the error. -/
structure Response where
  StatusCode : Int
  Status : String
  Body : String × Option ApiError
  deriving DecidableEq, Repr

/-- The Go struct `Client`, through its two methods that the dashboard
operations call and that are defined outside `dashboard.go`. -/
structure Client where
  newRequest : String → String → List (String × String) → Option String →
    Except ApiError Request
  Do : Request → Except ApiError Response

/-- The calls of `encoding/json` made in `dashboard.go`.  `Unmarshal` into a
pointer or a slice can leave it `nil` (`none`) and can fill it and still return
an error. -/
structure JsonCodec where
  MarshalWrapper : JsonObject → Bool → Except ApiError String
  MarshalDashboard : Dashboard → Except ApiError String
  UnmarshalSaveResponse : String → Option DashboardSaveResponse × Option ApiError
  UnmarshalDashboard : String → Option Dashboard × Option ApiError
  UnmarshalSearch : String → Option (List SearchResultItem) × Option ApiError
  UnmarshalVersions : String → Option (List DashboardVersionItem) × Option ApiError

/-- Go `m[k]` on a `map[string]interface{}`: `none` is `nil`. -/
def JsonObject.get (m : JsonObject) (k : String) : Option JsonValue :=
  (m.find? (fun kv => kv.1 = k)).map (fun kv => kv.2)

/-- Source `(*Client).SaveDashboard`: the returned pointer (`none` is `nil`)
and the returned error. -/
def Client.SaveDashboard (json : JsonCodec) (c : Client) (model : JsonObject)
    (overwrite : Bool) : Option DashboardSaveResponse × Option ApiError :=
  match json.MarshalWrapper model overwrite with
  | .error err => (none, some err)
  | .ok data =>
    match c.newRequest "POST" "/api/dashboards/db" [] (some data) with
    | .error err => (none, some err)
    | .ok req =>
      match c.Do req with
      | .error err => (none, some err)
      | .ok resp =>
        if resp.StatusCode ≠ 200 then
          (none, some ⟨"status: " ++ FormatInt resp.StatusCode ++ ", body: " ++ resp.Body.1⟩)
        else
          match resp.Body with
          | (_, some err) => (none, some err)
          | (data, none) => json.UnmarshalSaveResponse data

/-- Source `(*Client).NewDashboard`. -/
def Client.NewDashboard (json : JsonCodec) (c : Client) (dashboard : Dashboard) :
    Option DashboardSaveResponse × Option ApiError :=
  match json.MarshalDashboard dashboard with
  | .error err => (none, some err)
  | .ok data =>
    match c.newRequest "POST" "/api/dashboards/db" [] (some data) with
    | .error err => (none, some err)
    | .ok req =>
      match c.Do req with
      | .error err => (none, some err)
      | .ok resp =>
        if resp.StatusCode ≠ 200 then (none, some ⟨resp.Status⟩)
        else
          match resp.Body with
          | (_, some err) => (none, some err)
          | (data, none) => json.UnmarshalSaveResponse data

/-- Source `(*Client).Dashboard`.  The outer `none` is a panic: a `nil` result
dereferenced, or the type assertion `result.Model["uid"].(string)` failing. -/
def Client.Dashboard (json : JsonCodec) (c : Client) (slug : String) :
    Option (Option Dashboard × Option ApiError) :=
  let path := "/api/dashboards/db/" ++ slug
  match c.newRequest "GET" path [] none with
  | .error err => some (none, some err)
  | .ok req =>
    match c.Do req with
    | .error err => some (none, some err)
    | .ok resp =>
      if resp.StatusCode ≠ 200 then some (none, some ⟨resp.Status⟩)
      else
        match resp.Body with
        | (_, some err) => some (none, some err)
        | (data, none) =>
          match json.UnmarshalDashboard data with
          | (none, _) => none
          | (some result, err) =>
            let result := { result with Folder := result.Meta.Folder }
            match result.Model.get "uid" with
            | some (.string uid) =>
              some (some { result with Meta := { result.Meta with Uid := uid } }, err)
            | _ => none

/-- Source `(*Client).DashboardByUid`; the outer `none` is a panic. -/
def Client.DashboardByUid (json : JsonCodec) (c : Client) (uid : String) :
    Option (Option Grafana.Dashboard × Option ApiError) :=
  let path := "/api/dashboards/uid/" ++ uid
  match c.newRequest "GET" path [] none with
  | .error err => some (none, some err)
  | .ok req =>
    match c.Do req with
    | .error err => some (none, some err)
    | .ok resp =>
      if resp.StatusCode ≠ 200 then some (none, some ⟨resp.Status⟩)
      else
        match resp.Body with
        | (_, some err) => some (none, some err)
        | (data, none) =>
          match json.UnmarshalDashboard data with
          | (none, _) => none
          | (some result, err) =>
            let result := { result with Folder := result.Meta.Folder }
            match result.Model.get "uid" with
            | some (.string uid) =>
              some (some { result with Meta := { result.Meta with Uid := uid } }, err)
            | _ => none

/-- Source `(*Client).DashboardsByFolder`; a `nil` slice is `none`. -/
def Client.DashboardsByFolder (json : JsonCodec) (c : Client) (folderId : Int) :
    Option (List SearchResultItem) × Option ApiError :=
  let values := [("folderIds", FormatInt folderId), ("type", "dash-db")]
  match c.newRequest "GET" "/api/search" values none with
  | .error err => (none, some err)
  | .ok req =>
    match c.Do req with
    | .error err => (none, some err)
    | .ok resp =>
      if resp.StatusCode ≠ 200 then (none, some ⟨resp.Status⟩)
      else
        match resp.Body with
        | (_, some err) => (none, some err)
        | (data, none) => json.UnmarshalSearch data

/-- Source `(*Client).HomeDashboard`; the outer `none` is a panic. -/
def Client.HomeDashboard (json : JsonCodec) (c : Client) :
    Option (Option Grafana.Dashboard × Option ApiError) :=
  match c.newRequest "GET" "/api/dashboards/home" [] none with
  | .error err => some (none, some err)
  | .ok req =>
    match c.Do req with
    | .error err => some (none, some err)
    | .ok resp =>
      if resp.StatusCode ≠ 200 then some (none, some ⟨resp.Status⟩)
      else
        match resp.Body with
        | (_, some err) => some (none, some err)
        | (data, none) =>
          match json.UnmarshalDashboard data with
          | (none, _) => none
          | (some result, err) => some (some { result with Folder := result.Meta.Folder }, err)

/-- Source `(*Client).DeleteDashboard`. -/
def Client.DeleteDashboard (c : Client) (slug : String) : Option ApiError :=
  let path := "/api/dashboards/db/" ++ slug
  match c.newRequest "DELETE" path [] none with
  | .error err => some err
  | .ok req =>
    match c.Do req with
    | .error err => some err
    | .ok resp =>
      if resp.StatusCode ≠ 200 then some ⟨resp.Status⟩
      else none

/-- Source `(*Client).GetDashboardVersions`; `list` starts as a `nil` slice. -/
def Client.GetDashboardVersions (json : JsonCodec) (c : Client) (id : Int) :
    Option (List DashboardVersionItem) × Option ApiError :=
  let list : Option (List DashboardVersionItem) := none
  let path := "/api/dashboards/id/" ++ FormatInt id ++ "/versions/"
  match c.newRequest "GET" path [] none with
  | .error err => (list, some err)
  | .ok req =>
    match c.Do req with
    | .error err => (list, some err)
    | .ok resp =>
      if resp.StatusCode ≠ 200 then (list, some ⟨resp.Status⟩)
      else
        match resp.Body with
        | (_, some err) => (list, some err)
        | (data, none) => json.UnmarshalVersions data

/-! ## Concrete inputs used by the witnesses -/

/-- A Team client on which every call succeeds and whose member listing
returns `current`. -/
def okTeamClient (current : List TeamMember) : TeamClient where
  Team := fun _ id => .ok ⟨id, "team"⟩
  UpdateTeam := fun _ _ _ => none
  TeamMembers := fun _ _ => .ok current
  AddTeamMember := fun _ _ _ => none
  RemoveTeamMember := fun _ _ _ => none

/-- Team `7` with desired members `1, 2`, `members` flagged as changed. -/
def teamData7 : TeamData where
  id := "7"
  name := "ops"
  members := [1, 2]
  HasChange := fun k => k = "members"

/-- The error of a fetch that found nothing. -/
def notFound : ApiError := ⟨"404 Not Found"⟩

/-- The error of a server failure. -/
def serverError : ApiError := ⟨"500 Internal Server Error"⟩

/-- A Team client on which no team exists. -/
def absentTeamClient : TeamClient where
  Team := fun _ _ => .error notFound
  UpdateTeam := fun _ _ _ => some notFound
  TeamMembers := fun _ _ => .error notFound
  AddTeamMember := fun _ _ _ => some notFound
  RemoveTeamMember := fun _ _ _ => some notFound

/-- A Team client whose team fetch succeeds and whose member listing fails. -/
def brokenListingClient : TeamClient where
  Team := fun _ id => .ok ⟨id, "ops"⟩
  UpdateTeam := fun _ _ _ => none
  TeamMembers := fun _ _ => .error serverError
  AddTeamMember := fun _ _ _ => none
  RemoveTeamMember := fun _ _ _ => none

/-- A User client on which no user exists. -/
def absentUserClient : UserClient where
  CreateUser := fun _ _ => .error notFound
  User := fun _ _ => .error notFound

/-- User `3`. -/
def userData3 : UserData where
  id := "3"
  login := "alice"
  name := "Alice"
  email := "alice@example.org"
  HasChange := fun _ => false

/-- A permission library with the levels 1, 2 and 4, printed in decimal. -/
def exampleApi : PermissionApi Int where
  NewPermissionType := fun n =>
    if n = 1 ∨ n = 2 ∨ n = 4 then .ok n else .error ⟨"Invalid permission type"⟩
  String := FormatInt

/-- A FolderPermission client on which the folder is absent. -/
def absentFolderClient : FolderClient Int where
  GetFolderPermission := fun _ _ => .error notFound
  UpdateFolderPermission := fun _ _ _ => some notFound

/-- A FolderPermission client that accepts every replacement and answers a
fetch with the list of the last replacement made for that folder. -/
def storingFolderClient : FolderClient Int where
  GetFolderPermission := fun h folderId =>
    .ok (h.foldl (fun acc call =>
      match call with
      | .UpdateFolderPermission f l => if f = folderId then l else acc
      | .GetFolderPermission _ => acc) [])
  UpdateFolderPermission := fun _ _ _ => none

/-- Folder `12` with one role item; the stored identifier equals `folder_id`
and only `folder_id` is flagged as changed. -/
def folderData12 : FolderData where
  id := "12"
  folder_id := "12"
  items := [[("role", "Viewer"), ("permission", "1")]]
  HasChange := fun k => k = "folder_id"

/-- How `CreateFolderPermission` fills the three grantee fields of an entry:
the first of the keys `role`, `team_id`, `user_id` that is present in the item
decides, its value is copied (role) or parsed (ids), and the other two fields
keep their zero values; with none of the keys present all three are zero. -/
def FirstPresentKey {P : Type} (item : Item) (p : FolderPermission P) : Prop :=
  match item.get "role", item.get "team_id", item.get "user_id" with
  | some role, _, _ => p.Role = role ∧ p.TeamId = 0 ∧ p.UserId = 0
  | none, some s, _ => p.Role = "" ∧ Atoi s = (p.TeamId, none) ∧ p.UserId = 0
  | none, none, some s => p.Role = "" ∧ p.TeamId = 0 ∧ Atoi s = (p.UserId, none)
  | none, none, none => p.Role = "" ∧ p.TeamId = 0 ∧ p.UserId = 0

/-- At most one of the three grantee fields of an entry is set. -/
def AtMostOneSet {P : Type} (p : FolderPermission P) : Prop :=
  (p.Role = "" ∧ p.TeamId = 0) ∨ (p.Role = "" ∧ p.UserId = 0) ∨ (p.TeamId = 0 ∧ p.UserId = 0)

/-- Folder `12` with an item that names no grantee and an item whose `role`
is present and empty next to a `team_id`. -/
def folderDataNoGrantee : FolderData where
  id := "12"
  folder_id := "12"
  items := [[("permission", "1")], [("role", ""), ("team_id", "5"), ("permission", "2")]]
  HasChange := fun k => k = "items"

/-- The items of the round-trip property: `item` carries a permission that is
a decimal string of a level `p` accepted by `NewPermissionType`, and exactly one
of `role` (non-empty), `team_id`, `user_id` (the canonical decimal string of a
non-zero 64-bit integer). -/
def RoundTripItem {P : Type} (api : PermissionApi P) (item : Item) (p : P) : Prop :=
  (∃ s n, item.get "permission" = some s ∧ Atoi s = (n, none) ∧
    api.NewPermissionType n = .ok p) ∧
  ((∃ role, role ≠ "" ∧ item.get "role" = some role ∧ item.get "team_id" = none ∧
      item.get "user_id" = none) ∨
   (∃ n : Int, n ≠ 0 ∧ -(2 : Int) ^ 63 ≤ n ∧ n < (2 : Int) ^ 63 ∧ item.get "role" = none ∧
      item.get "team_id" = some (FormatInt n) ∧ item.get "user_id" = none) ∨
   (∃ n : Int, n ≠ 0 ∧ -(2 : Int) ^ 63 ≤ n ∧ n < (2 : Int) ^ 63 ∧ item.get "role" = none ∧
      item.get "team_id" = none ∧ item.get "user_id" = some (FormatInt n)))

/-- The item `item'` read back for `item`: the same value (or absence) under
each of the three grantee keys, and the string form of the level `p` under
`permission`. -/
def ReadsBack {P : Type} (api : PermissionApi P) (item item' : Item) (p : P) : Prop :=
  item'.get "role" = item.get "role" ∧ item'.get "team_id" = item.get "team_id" ∧
  item'.get "user_id" = item.get "user_id" ∧ item'.get "permission" = some (api.String p)

/-- Folder `12` with a role item, a team item and a user item. -/
def folderDataMixed : FolderData where
  id := ""
  folder_id := "12"
  items := [[("role", "Viewer"), ("permission", "1")],
            [("team_id", "5"), ("permission", "2")],
            [("user_id", "-3"), ("permission", "4")]]
  HasChange := fun _ => true

/-- A 404 response with a text body. -/
def response404 : Response where
  StatusCode := 404
  Status := "404 Not Found"
  Body := ("Dashboard not found", none)

/-- A 201 response with an empty JSON object as body. -/
def response201 : Response where
  StatusCode := 201
  Status := "201 Created"
  Body := ("\x7b\x7d", none)

/-- A client that builds every request and gets `resp` for each of them. -/
def respondingClient (resp : Response) : Client where
  newRequest := fun method path query body => .ok ⟨method, path, query, body⟩
  Do := fun _ => .ok resp

/-- A codec that encodes everything as an empty object and decodes nothing. -/
def exampleCodec : JsonCodec where
  MarshalWrapper := fun _ _ => .ok "\x7b\x7d"
  MarshalDashboard := fun _ => .ok "\x7b\x7d"
  UnmarshalSaveResponse := fun _ => (none, some ⟨"unexpected end of JSON input"⟩)
  UnmarshalDashboard := fun _ => (none, some ⟨"unexpected end of JSON input"⟩)
  UnmarshalSearch := fun _ => (none, some ⟨"unexpected end of JSON input"⟩)
  UnmarshalVersions := fun _ => (none, some ⟨"unexpected end of JSON input"⟩)

/-- Folder permissions stored under identifier `12` whose `folder_id` was
changed to `13`; only `folder_id` is flagged as changed. -/
def folderDataMoved : FolderData where
  id := "12"
  folder_id := "13"
  items := [[("role", "Viewer"), ("permission", "1")]]
  HasChange := fun k => k = "folder_id"

/-! # Theorems -/

/-! ## Lemmas on the member map -/

theorem mem_foldl_mapSet (l : List Int) (m : List Int) (x : Int) :
    x ∈ l.foldl mapSet m ↔ x ∈ m ∨ x ∈ l := by
  induction l generalizing m with
  | nil => simp
  | cons a l ih =>
    simp only [List.foldl_cons, ih, List.mem_cons]
    unfold mapSet
    by_cases ha : a ∈ m
    · simp only [ha, if_true]
      constructor
      · rintro (h | h)
        · exact Or.inl h
        · exact Or.inr (Or.inr h)
      · rintro (h | h | h)
        · exact Or.inl h
        · exact Or.inl (h ▸ ha)
        · exact Or.inr h
    · simp only [ha, if_false, List.mem_append, List.mem_singleton]
      tauto

theorem nodup_foldl_mapSet (l : List Int) (m : List Int) (hm : m.Nodup) :
    (l.foldl mapSet m).Nodup := by
  induction l generalizing m with
  | nil => simpa using hm
  | cons a l ih =>
    simp only [List.foldl_cons]
    apply ih
    unfold mapSet
    by_cases ha : a ∈ m
    · simpa [ha] using hm
    · simp only [ha, if_false]
      rw [List.nodup_append]
      refine ⟨hm, List.nodup_singleton a, ?_⟩
      intro x hx hx'
      simp only [List.mem_singleton] at hx'
      exact ha (hx' ▸ hx)

theorem addMembers_all_ok (c : TeamClient) (teamId : String)
    (hadd : ∀ h u, c.AddTeamMember h teamId u = none)
    (desired : List Int) (hnd : desired.Nodup) (h : List TeamCall) (m : List Int) :
    addMembers c teamId h desired m =
      (m.filter (fun x => x ∉ desired),
        (desired.filter (fun x => x ∉ m)).map (fun u => TeamCall.AddTeamMember teamId u),
        none) := by
  induction desired generalizing h m with
  | nil => simp [addMembers]
  | cons a rest ih =>
    have hnd' := (List.nodup_cons.mp hnd)
    have hfilter : rest.filter (fun x => x ∉ mapDelete m a) = rest.filter (fun x => x ∉ m) := by
      apply List.filter_congr
      intro x hx
      have hxa : x ≠ a := fun hxa => hnd'.1 (hxa ▸ hx)
      simp [mapDelete, hxa]
    have hm : (mapDelete m a).filter (fun x => x ∉ rest) =
        m.filter (fun x => x ∉ a :: rest) := by
      unfold mapDelete
      rw [List.filter_filter]
      apply List.filter_congr
      intro x _
      simp [List.mem_cons, not_or, Bool.and_comm]
    unfold addMembers
    by_cases ha : a ∈ m
    · simp only [ha, not_true_eq_false, if_false]
      rw [ih hnd'.2, hfilter, hm]
      simp [List.filter_cons, ha]
    · simp only [ha, not_false_eq_true, if_true, hadd]
      rw [ih hnd'.2, hfilter, hm]
      simp [List.filter_cons, ha]

theorem removeMembers_all_ok (c : TeamClient) (teamId : String)
    (hrem : ∀ h u, c.RemoveTeamMember h teamId u = none)
    (keys : List Int) (h : List TeamCall) :
    removeMembers c teamId h keys =
      (keys.map (fun u => TeamCall.RemoveTeamMember teamId u), none) := by
  induction keys generalizing h with
  | nil => simp [removeMembers]
  | cons a rest ih =>
    unfold removeMembers
    simp only [hrem]
    rw [ih]
    simp

theorem count_map_AddTeamMember (teamId t : String) (u : Int) (l : List Int) :
    (l.map (fun x => TeamCall.AddTeamMember teamId x)).count (.AddTeamMember t u) =
      if t = teamId then l.count u else 0 := by
  induction l with
  | nil => simp
  | cons a l ih =>
    simp only [List.map_cons, List.count_cons, ih]
    by_cases ht : t = teamId
    · subst ht
      by_cases hu : a = u <;> simp [hu]
    · have : ¬ teamId = t := fun e => ht e.symm
      simp [ht, this]

theorem count_map_RemoveTeamMember (teamId t : String) (u : Int) (l : List Int) :
    (l.map (fun x => TeamCall.RemoveTeamMember teamId x)).count (.RemoveTeamMember t u) =
      if t = teamId then l.count u else 0 := by
  induction l with
  | nil => simp
  | cons a l ih =>
    simp only [List.map_cons, List.count_cons, ih]
    by_cases ht : t = teamId
    · subst ht
      by_cases hu : a = u <;> simp [hu]
    · have : ¬ teamId = t := fun e => ht e.symm
      simp [ht, this]

theorem count_AddTeamMember_in_removes (teamId t : String) (u : Int) (l : List Int) :
    (l.map (fun x => TeamCall.RemoveTeamMember teamId x)).count (.AddTeamMember t u) = 0 := by
  induction l with
  | nil => simp
  | cons a l ih => simp [List.count_cons, ih]

theorem count_RemoveTeamMember_in_adds (teamId t : String) (u : Int) (l : List Int) :
    (l.map (fun x => TeamCall.AddTeamMember teamId x)).count (.RemoveTeamMember t u) = 0 := by
  induction l with
  | nil => simp
  | cons a l ih => simp [List.count_cons, ih]

theorem UpdateTeam_all_ok_calls (rangeOrder : List Int → List Int) (c : TeamClient)
    (h : List TeamCall) (d : TeamData) (current : List TeamMember)
    (hset : d.members.Nodup)
    (hchg : d.HasChange "members" = true)
    (hname : ∀ h' n, c.UpdateTeam h' d.id n = none)
    (hmem : ∀ h', c.TeamMembers h' d.id = .ok current)
    (hadd : ∀ h' u, c.AddTeamMember h' d.id u = none)
    (hrem : ∀ h' u, c.RemoveTeamMember h' d.id u = none) :
    (UpdateTeam rangeOrder c h d).err = none ∧
    (UpdateTeam rangeOrder c h d).calls =
      (if d.HasChange "name" then [TeamCall.UpdateTeam d.id d.name] else []) ++
      [TeamCall.TeamMembers d.id] ++
      (d.members.filter (fun x => x ∉ (current.map (fun m => m.UserId)).foldl mapSet [])).map
        (fun u => TeamCall.AddTeamMember d.id u) ++
      (rangeOrder (((current.map (fun m => m.UserId)).foldl mapSet []).filter
        (fun x => x ∉ d.members))).map (fun u => TeamCall.RemoveTeamMember d.id u) := by
  unfold UpdateTeam getTeamMembers
  by_cases hn : d.HasChange "name" = true
  · simp only [hn, if_true, hname, hmem, hchg, addMembers_all_ok c d.id hadd d.members hset,
      removeMembers_all_ok c d.id hrem]
    simp
  · simp only [hn, hname, hmem, hchg, addMembers_all_ok c d.id hadd d.members hset,
      removeMembers_all_ok c d.id hrem]
    simp

/-- C1. When `members` is flagged as changed and every client call succeeds,
`UpdateTeam` returns no error and, for every team id `t` and user id `u`, it
issues `AddTeamMember t u` exactly once if `t` is the stored identifier and `u`
is in the desired set but not in the member list returned by `TeamMembers`,
and not at all otherwise; it issues `RemoveTeamMember t u` exactly once if `t`
is the stored identifier and `u` is in the returned member list but not in the
desired set, and not at all otherwise.  In particular an id in both gets no
call.  `d.members` is the list of a `schema.Set`, hence without duplicates, and
`rangeOrder` is any order of visiting the keys of a map. -/
theorem UpdateTeam_membership_diff (rangeOrder : List Int → List Int) (c : TeamClient)
    (h : List TeamCall) (d : TeamData) (current : List TeamMember)
    (hord : ∀ m, (rangeOrder m).Perm m)
    (hset : d.members.Nodup)
    (hchg : d.HasChange "members" = true)
    (hname : ∀ h' n, c.UpdateTeam h' d.id n = none)
    (hmem : ∀ h', c.TeamMembers h' d.id = .ok current)
    (hadd : ∀ h' u, c.AddTeamMember h' d.id u = none)
    (hrem : ∀ h' u, c.RemoveTeamMember h' d.id u = none) :
    (UpdateTeam rangeOrder c h d).err = none ∧
    ∀ (t : String) (u : Int),
      (UpdateTeam rangeOrder c h d).calls.count (.AddTeamMember t u) =
        (if t = d.id ∧ u ∈ d.members ∧ u ∉ current.map (fun m => m.UserId) then 1 else 0) ∧
      (UpdateTeam rangeOrder c h d).calls.count (.RemoveTeamMember t u) =
        (if t = d.id ∧ u ∈ current.map (fun m => m.UserId) ∧ u ∉ d.members then 1 else 0) := by
  obtain ⟨herr, hcalls⟩ :=
    UpdateTeam_all_ok_calls rangeOrder c h d current hset hchg hname hmem hadd hrem
  refine ⟨herr, ?_⟩
  intro t u
  rw [hcalls]
  have hmapnd : ((current.map (fun m => m.UserId)).foldl mapSet []).Nodup :=
    nodup_foldl_mapSet _ [] List.nodup_nil
  have hmemmap : ∀ x, x ∈ (current.map (fun m => m.UserId)).foldl mapSet [] ↔
      x ∈ current.map (fun m => m.UserId) := by
    intro x
    rw [mem_foldl_mapSet]
    simp
  have hnamecnt : ∀ k : TeamCall, (∀ i n, k ≠ .UpdateTeam i n) →
      (if d.HasChange "name" = true then [TeamCall.UpdateTeam d.id d.name] else []).count k = 0 := by
    intro k hk
    by_cases hn : d.HasChange "name" = true
    · simp only [hn, if_true]
      rw [List.count_eq_zero]
      simp only [List.mem_singleton]
      exact hk _ _
    · simp [hn]
  constructor
  · simp only [List.count_append, count_map_AddTeamMember, count_AddTeamMember_in_removes]
    rw [hnamecnt _ (by intro i n; simp)]
    have h0 : [TeamCall.TeamMembers d.id].count (.AddTeamMember t u) = 0 := by
      rw [List.count_eq_zero]; simp
    rw [h0]
    by_cases ht : t = d.id
    · simp only [ht, true_and, if_true, zero_add, add_zero]
      rw [List.count_eq_of_nodup (hset.filter _)]
      simp only [List.mem_filter, decide_eq_true_eq, hmemmap]
    · simp [ht]
  · simp only [List.count_append, count_map_RemoveTeamMember, count_RemoveTeamMember_in_adds]
    rw [hnamecnt _ (by intro i n; simp)]
    have h0 : [TeamCall.TeamMembers d.id].count (.RemoveTeamMember t u) = 0 := by
      rw [List.count_eq_zero]; simp
    rw [h0]
    by_cases ht : t = d.id
    · simp only [ht, true_and, if_true, zero_add, add_zero]
      rw [(hord _).count_eq, List.count_eq_of_nodup (hmapnd.filter _)]
      simp only [List.mem_filter, decide_eq_true_eq, hmemmap]
    · simp [ht]


theorem UpdateTeam_membership_diff_witness :
    (UpdateTeam id (okTeamClient [⟨2⟩, ⟨3⟩]) [] teamData7).err = none ∧
    ∀ (t : String) (u : Int),
      (UpdateTeam id (okTeamClient [⟨2⟩, ⟨3⟩]) [] teamData7).calls.count (.AddTeamMember t u) =
        (if t = teamData7.id ∧ u ∈ teamData7.members ∧
            u ∉ ([⟨2⟩, ⟨3⟩] : List TeamMember).map (fun m => m.UserId) then 1 else 0) ∧
      (UpdateTeam id (okTeamClient [⟨2⟩, ⟨3⟩]) [] teamData7).calls.count
          (.RemoveTeamMember t u) =
        (if t = teamData7.id ∧ u ∈ ([⟨2⟩, ⟨3⟩] : List TeamMember).map (fun m => m.UserId) ∧
            u ∉ teamData7.members then 1 else 0) :=
  UpdateTeam_membership_diff id (okTeamClient [⟨2⟩, ⟨3⟩]) [] teamData7 [⟨2⟩, ⟨3⟩]
    (fun m => List.Perm.refl m) (by decide) (by decide) (fun _ _ => rfl) (fun _ => rfl)
    (fun _ _ => rfl) (fun _ _ => rfl)

/-! ## Exists and Read -/

/-- C3. For each of `ExistsTeam`, `ExistsUser` and `ExistsFolderPermission`,
whatever the fetch returns: the result is `(false, nil)` if and only if the
fetch failed with an error whose message is exactly "404 Not Found"; it is
`(true, nil)` when the fetch succeeded; and for every other fetch error it is
`(false, err)` with that same error.  The fetch is the only call issued. -/
theorem Exists_semantics {P : Type} (tc : TeamClient) (uc : UserClient) (fc : FolderClient P)
    (ht : List TeamCall) (hu : List UserCall) (hf : List (FolderCall P))
    (td : TeamData) (ud : UserData) (fd : FolderData) :
    (((ExistsTeam tc ht td).1 = (false, none) ↔
        ∃ e, tc.Team ht (ParseInt td.id).1 = .error e ∧ e.Error = "404 Not Found") ∧
      (∀ t, tc.Team ht (ParseInt td.id).1 = .ok t → (ExistsTeam tc ht td).1 = (true, none)) ∧
      (∀ e, tc.Team ht (ParseInt td.id).1 = .error e → e.Error ≠ "404 Not Found" →
        (ExistsTeam tc ht td).1 = (false, some (.api e))) ∧
      (ExistsTeam tc ht td).2 = [.Team (ParseInt td.id).1]) ∧
    (((ExistsUser uc hu ud).1 = (false, none) ↔
        ∃ e, uc.User hu (ParseInt ud.id).1 = .error e ∧ e.Error = "404 Not Found") ∧
      (∀ u, uc.User hu (ParseInt ud.id).1 = .ok u → (ExistsUser uc hu ud).1 = (true, none)) ∧
      (∀ e, uc.User hu (ParseInt ud.id).1 = .error e → e.Error ≠ "404 Not Found" →
        (ExistsUser uc hu ud).1 = (false, some (.api e))) ∧
      (ExistsUser uc hu ud).2 = [.User (ParseInt ud.id).1]) ∧
    (((ExistsFolderPermission fc hf fd).1 = (false, none) ↔
        ∃ e, fc.GetFolderPermission hf fd.id = .error e ∧ e.Error = "404 Not Found") ∧
      (∀ l, fc.GetFolderPermission hf fd.id = .ok l →
        (ExistsFolderPermission fc hf fd).1 = (true, none)) ∧
      (∀ e, fc.GetFolderPermission hf fd.id = .error e → e.Error ≠ "404 Not Found" →
        (ExistsFolderPermission fc hf fd).1 = (false, some (.api e))) ∧
      (ExistsFolderPermission fc hf fd).2 = [.GetFolderPermission fd.id]) := by
  refine ⟨?_, ?_, ?_⟩
  · cases hfetch : tc.Team ht (ParseInt td.id).1 with
    | error e => by_cases h404 : e.Error = "404 Not Found" <;> simp [ExistsTeam, hfetch, h404]
    | ok t => simp [ExistsTeam, hfetch]
  · cases hfetch : uc.User hu (ParseInt ud.id).1 with
    | error e => by_cases h404 : e.Error = "404 Not Found" <;> simp [ExistsUser, hfetch, h404]
    | ok u => simp [ExistsUser, hfetch]
  · cases hfetch : fc.GetFolderPermission hf fd.id with
    | error e => by_cases h404 : e.Error = "404 Not Found" <;> simp [ExistsFolderPermission, hfetch, h404]
    | ok l => simp [ExistsFolderPermission, hfetch]

/-- C4. For `ReadTeam` and for `ReadUser`: when the stored identifier parses
as an integer `id` and the entity fetch fails with an error whose message is
exactly "404 Not Found", the read returns no error, the fetch is the only
client call it issues, and the resource data is left as it was except for the
stored identifier, which is the empty string. -/
theorem Read_absent_clears_id :
    (∀ (newSet : List Int → List Int) (c : TeamClient) (h : List TeamCall) (d : TeamData)
        (id : Int) (e : ApiError),
        ParseInt d.id = (id, none) → c.Team h id = .error e → e.Error = "404 Not Found" →
        (ReadTeam newSet c h d).err = none ∧ (ReadTeam newSet c h d).calls = [.Team id] ∧
        (ReadTeam newSet c h d).d = { d with id := "" }) ∧
    (∀ (c : UserClient) (h : List UserCall) (d : UserData) (id : Int) (e : ApiError),
        ParseInt d.id = (id, none) → c.User h id = .error e → e.Error = "404 Not Found" →
        (ReadUser c h d).err = none ∧ (ReadUser c h d).calls = [.User id] ∧
        (ReadUser c h d).d = { d with id := "" }) := by
  constructor
  · intro newSet c h d id e hparse hfetch h404
    simp [ReadTeam, hparse, hfetch, h404]
  · intro c h d id e hparse hfetch h404
    simp [ReadUser, hparse, hfetch, h404]

theorem Read_absent_clears_id_witness :
    ((ReadTeam id absentTeamClient [] teamData7).err = none ∧
      (ReadTeam id absentTeamClient [] teamData7).calls = [.Team 7] ∧
      (ReadTeam id absentTeamClient [] teamData7).d = { teamData7 with id := "" }) ∧
    ((ReadUser absentUserClient [] userData3).err = none ∧
      (ReadUser absentUserClient [] userData3).calls = [.User 3] ∧
      (ReadUser absentUserClient [] userData3).d = { userData3 with id := "" }) :=
  ⟨Read_absent_clears_id.1 id absentTeamClient [] teamData7 7 notFound (by decide) rfl rfl,
   Read_absent_clears_id.2 absentUserClient [] userData3 3 notFound (by decide) rfl rfl⟩

/-- C5. `ReadFolderPermission` on a folder whose permission fetch fails with
"404 Not Found": the error is returned and the stored identifier is kept. -/
theorem ReadFolderPermission_absent_returns_error :
    (ReadFolderPermission exampleApi absentFolderClient [] folderData12).err
      = some (.api ⟨"404 Not Found"⟩) ∧
    (ReadFolderPermission exampleApi absentFolderClient [] folderData12).d.id = "12" := by
  constructor <;> rfl

/-- C10. `ReadTeam` on team `7` when the team fetch succeeds and the member
listing fails with "500 Internal Server Error": both calls are issued, the
read returns no error and `members` is set from an empty list. -/
theorem ReadTeam_ignores_listing_error :
    brokenListingClient.TeamMembers [.Team 7] "7" = .error serverError ∧
    (ReadTeam id brokenListingClient [] teamData7).calls = [.Team 7, .TeamMembers "7"] ∧
    (ReadTeam id brokenListingClient [] teamData7).err = none ∧
    (ReadTeam id brokenListingClient [] teamData7).d.members = [] := by
  refine ⟨rfl, ?_, ?_, ?_⟩ <;> decide

/-- Every error of the permission fetch, "404 Not Found" included, is returned
by `ReadFolderPermission`, which leaves the resource data as it was. -/
theorem ReadFolderPermission_fetch_error {P : Type} (api : PermissionApi P)
    (c : FolderClient P) (h : List (FolderCall P)) (d : FolderData) (e : ApiError)
    (hfetch : c.GetFolderPermission h d.id = .error e) :
    (ReadFolderPermission api c h d).err = some (.api e) ∧
    (ReadFolderPermission api c h d).d = d := by
  simp [ReadFolderPermission, hfetch]

/-- A team fetch error other than "404 Not Found" is returned by `ReadTeam`
unchanged, after that single call, and a successful team fetch always ends in
success, whatever the member listing returns. -/
theorem ReadTeam_error_paths (newSet : List Int → List Int) (c : TeamClient)
    (h : List TeamCall) (d : TeamData) (id : Int) (hparse : ParseInt d.id = (id, none)) :
    (∀ e, c.Team h id = .error e → e.Error ≠ "404 Not Found" →
      (ReadTeam newSet c h d).err = some (.api e) ∧ (ReadTeam newSet c h d).calls = [.Team id]) ∧
    (∀ team, c.Team h id = .ok team → (ReadTeam newSet c h d).err = none) := by
  constructor
  · intro e hfetch h404
    simp [ReadTeam, hparse, hfetch, h404]
  · intro team hfetch
    simp [ReadTeam, hparse, hfetch]

/-! ## FolderPermission: delete and update -/

/-- C7. When the stored identifier equals `folder_id`, `CreateFolderPermission`
on the same resource with `items` empty does not panic, and it issues the same
client calls as `DeleteFolderPermission`, namely one replace-all call on that
folder id with an empty entry list, and returns the same error (or none). -/
theorem Delete_equiv_Create_empty {P : Type} (api : PermissionApi P) (c : FolderClient P)
    (h : List (FolderCall P)) (d : FolderData) (hid : d.id = d.folder_id) :
    ∃ r, CreateFolderPermission api c h { d with items := [] } = some r ∧
      r.calls = (DeleteFolderPermission c h d).calls ∧
      r.err = (DeleteFolderPermission c h d).err ∧
      (DeleteFolderPermission c h d).calls = [.UpdateFolderPermission d.folder_id []] := by
  unfold CreateFolderPermission DeleteFolderPermission
  simp only [buildPermissions, hid]
  cases hupd : c.UpdateFolderPermission h d.folder_id [] with
  | none => exact ⟨_, rfl, rfl, rfl, rfl⟩
  | some e => exact ⟨_, rfl, rfl, rfl, rfl⟩

theorem Delete_equiv_Create_empty_witness :
    ∃ r, CreateFolderPermission exampleApi storingFolderClient []
        { folderData12 with items := [] } = some r ∧
      r.calls = (DeleteFolderPermission storingFolderClient [] folderData12).calls ∧
      r.err = (DeleteFolderPermission storingFolderClient [] folderData12).err ∧
      (DeleteFolderPermission storingFolderClient [] folderData12).calls
        = [.UpdateFolderPermission folderData12.folder_id []] :=
  Delete_equiv_Create_empty exampleApi storingFolderClient [] folderData12 rfl

/-- With only `folder_id` flagged as changed, `UpdateFolderPermission` issues
no client call and returns success, while `CreateFolderPermission` on the same
resource issues a replace-all. -/
theorem UpdateFolderPermission_folder_id_change_counterexample :
    folderData12.HasChange "folder_id" = true ∧
    (UpdateFolderPermission exampleApi storingFolderClient [] folderData12).map
        (fun r => (r.calls, r.err)) = some ([], none) ∧
    (CreateFolderPermission exampleApi storingFolderClient [] folderData12).map
        (fun r => (r.calls, r.err)) =
      some ([.UpdateFolderPermission "12"
        [{ Role := "Viewer", TeamId := 0, UserId := 0, Permission := 1 }]], none) := by
  refine ⟨?_, ?_, ?_⟩ <;> decide

/-- The only flag that `UpdateFolderPermission` reads is the one of `items`:
when it is set the function is `CreateFolderPermission`, and when it is not set
the function issues no client call, returns success and leaves the resource
data as it was, whatever the flag of `folder_id`. -/
theorem UpdateFolderPermission_gated_on_items {P : Type} (api : PermissionApi P)
    (c : FolderClient P) (h : List (FolderCall P)) (d : FolderData) :
    (d.HasChange "items" = true →
      UpdateFolderPermission api c h d = CreateFolderPermission api c h d) ∧
    (d.HasChange "items" = false →
      UpdateFolderPermission api c h d = some ⟨d, [], none⟩) := by
  constructor
  · intro hc
    simp [UpdateFolderPermission, hc]
  · intro hc
    simp [UpdateFolderPermission, hc]

/-- C9. `UpdateFolderPermission` on the resource stored under identifier `12`
whose `folder_id` was changed to `13`, with `folder_id` flagged as changed and
`items` not: it issues no client call, returns success and leaves the stored
identifier `12` beside `folder_id` `13`, whereas `CreateFolderPermission` on
the same resource issues the replace-all on folder `13` and stores `13` as
identifier.  The update does not re-invoke the creation on this change. -/
theorem UpdateFolderPermission_ignores_folder_id_change :
    folderDataMoved.HasChange "folder_id" = true ∧
    (UpdateFolderPermission exampleApi storingFolderClient [] folderDataMoved).map
        (fun r => (r.calls, r.err, r.d.id, r.d.folder_id)) = some ([], none, "12", "13") ∧
    (CreateFolderPermission exampleApi storingFolderClient [] folderDataMoved).map
        (fun r => (r.calls, r.err, r.d.id, r.d.folder_id)) =
      some ([.UpdateFolderPermission "13"
        [{ Role := "Viewer", TeamId := 0, UserId := 0, Permission := 1 }]], none, "13", "13") := by
  refine ⟨?_, ?_, ?_⟩ <;> decide

/-! ## Generated passwords -/

theorem alphanum_length : alphanum.data.length = 62 := by decide

theorem pickBytes_default (bytes : List Nat) :
    ∃ l, pickBytes [] bytes = some l ∧ l.length = bytes.length ∧ ∀ ch ∈ l, ch ∈ alphanum.data := by
  induction bytes with
  | nil => exact ⟨[], rfl, rfl, by simp⟩
  | cons b bs ih =>
    obtain ⟨l, hl, hlen, hmem⟩ := ih
    have hidx : b % (alphanum.length % 256) < alphanum.data.length := by
      have h62 : alphanum.length % 256 = 62 := by decide
      rw [h62, alphanum_length]
      exact Nat.mod_lt _ (by decide)
    refine ⟨alphanum.data[b % (alphanum.length % 256)] :: l, ?_, ?_, ?_⟩
    · simp only [pickBytes, List.length_nil, if_true, hl, List.getElem?_eq_getElem hidx]
    · simp [hlen]
    · intro ch hch
      rcases List.mem_cons.mp hch with h | h
      · rw [h]
        exact List.getElem_mem hidx
      · exact hmem ch h

theorem GetRandomString_default (rand : Nat → Nat) (n : Int) (hn : 0 ≤ n) :
    ∃ s, GetRandomString rand n [] = some s ∧ (s.length : Int) = n ∧
      ∀ ch ∈ s.data, ch ∈ alphanum.data := by
  obtain ⟨l, hl, hlen, hmem⟩ :=
    pickBytes_default ((List.range n.toNat).map (fun i => rand i % 256))
  refine ⟨⟨l⟩, ?_, ?_, hmem⟩
  · simp [GetRandomString, not_lt.mpr hn, hl]
  · simp only [String.length, hlen, List.length_map, List.length_range]
    exact Int.toNat_of_nonneg hn

/-- C6. For every `n ≥ 0` and every content of the random buffer,
`GetRandomString(n)` without a custom alphabet does not panic (the index
`b % 62` is in range) and returns a string of exactly `n` characters, each a
member of the 62-character constant `alphanum`.  For every desired state,
client and history, `CreateUser` does not panic and the first call it issues is
`client.CreateUser` with the desired login, email and name and with a password
that is the result of `GetRandomString(10)`: 10 characters of `alphanum`. -/
theorem generated_password (rand : Nat → Nat) (n : Int) (hn : 0 ≤ n) :
    alphanum.length = 62 ∧
    (∃ s, GetRandomString rand n [] = some s ∧ (s.length : Int) = n ∧
      ∀ ch ∈ s.data, ch ∈ alphanum.data) ∧
    (∀ (c : UserClient) (h : List UserCall) (d : UserData),
      ∃ pw r, GetRandomString rand 10 [] = some pw ∧ CreateUser rand c h d = some r ∧
        r.calls.head? = some (.CreateUser
          { Id := 0, Login := d.login, Email := d.email, Name := d.name, Password := pw,
            IsAdmin := false }) ∧
        pw.length = 10 ∧ ∀ ch ∈ pw.data, ch ∈ alphanum.data) := by
  refine ⟨by decide, GetRandomString_default rand n hn, ?_⟩
  intro c h d
  obtain ⟨pw, hpw, hlen, hmem⟩ := GetRandomString_default rand 10 (by decide)
  have hlen' : pw.length = 10 := by exact_mod_cast hlen
  cases hcreate : c.CreateUser h
      { Id := 0, Login := d.login, Email := d.email, Name := d.name, Password := pw,
        IsAdmin := false } with
  | error e =>
    refine ⟨pw, ⟨d, [.CreateUser _], some (.api e)⟩, hpw, ?_, rfl, hlen', hmem⟩
    simp [CreateUser, hpw, hcreate]
  | ok userId =>
    have hrun : ∃ r, CreateUser rand c h d = some r ∧ r.calls.head? = some (.CreateUser
        { Id := 0, Login := d.login, Email := d.email, Name := d.name, Password := pw,
          IsAdmin := false }) := by
      simp [CreateUser, hpw, hcreate]
    obtain ⟨r, hr, hhead⟩ := hrun
    exact ⟨pw, r, hpw, hr, hhead, hlen', hmem⟩

theorem generated_password_witness :
    alphanum.length = 62 ∧
    (∃ s, GetRandomString (fun i => 7 * i + 200) 4 [] = some s ∧ (s.length : Int) = 4 ∧
      ∀ ch ∈ s.data, ch ∈ alphanum.data) ∧
    (∀ (c : UserClient) (h : List UserCall) (d : UserData),
      ∃ pw r, GetRandomString (fun i => 7 * i + 200) 10 [] = some pw ∧
        CreateUser (fun i => 7 * i + 200) c h d = some r ∧
        r.calls.head? = some (.CreateUser
          { Id := 0, Login := d.login, Email := d.email, Name := d.name, Password := pw,
            IsAdmin := false }) ∧
        pw.length = 10 ∧ ∀ ch ∈ pw.data, ch ∈ alphanum.data) :=
  generated_password (fun i => 7 * i + 200) 4 (by decide)

/-! ## FolderPermission entries -/

theorem buildPermission_ok {P : Type} (api : PermissionApi P) (item : Item)
    (p : FolderPermission P) (hok : buildPermission api item = .ok p) :
    FirstPresentKey item p ∧ AtMostOneSet p := by
  unfold buildPermission at hok
  unfold FirstPresentKey AtMostOneSet
  cases hperm : item.get "permission" with
  | none =>
    simp only [hperm] at hok
    split at hok <;> simp at hok
  | some sp =>
    cases hrole : item.get "role" with
    | some role =>
      simp only [hrole, hperm] at hok
      split at hok
      · simp at hok
      · split at hok
        · simp at hok
        · rename_i permission _
          injection hok with hp
          subst hp
          simp
    | none =>
      rcases hP : Atoi sp with ⟨permId, _ | e⟩
      swap
      · simp only [hrole, hperm, hP] at hok
        split at hok <;> simp at hok
      cases hN : api.NewPermissionType permId with
      | error e =>
        simp only [hrole, hperm, hP, hN] at hok
        split at hok <;> simp at hok
      | ok permission =>
        cases hteam : item.get "team_id" with
        | some s =>
          rcases hA : Atoi s with ⟨v, _ | e⟩
          · simp only [hrole, hteam, hA, hperm, hP, hN] at hok
            injection hok with hp
            subst hp
            simp [hA]
          · simp [hrole, hteam, hA] at hok
        | none =>
          cases huser : item.get "user_id" with
          | some s =>
            rcases hA : Atoi s with ⟨v, _ | e⟩
            · simp only [hrole, hteam, huser, hA, hperm, hP, hN] at hok
              injection hok with hp
              subst hp
              simp [hA]
            · simp [hrole, hteam, huser, hA] at hok
          | none =>
            simp only [hrole, hteam, huser, hperm, hP, hN] at hok
            injection hok with hp
            subst hp
            simp

theorem buildPermissions_ok {P : Type} (api : PermissionApi P) (items : List Item)
    (perms : List (FolderPermission P)) (hok : buildPermissions api items = .ok perms) :
    List.Forall₂ (fun item p => FirstPresentKey item p ∧ AtMostOneSet p) items perms := by
  induction items generalizing perms with
  | nil =>
    simp only [buildPermissions] at hok
    injection hok with hp
    subst hp
    exact List.Forall₂.nil
  | cons item rest ih =>
    simp only [buildPermissions] at hok
    cases h1 : buildPermission api item with
    | error e => simp [h1] at hok
    | panic => simp [h1] at hok
    | ok p =>
      cases h2 : buildPermissions api rest with
      | error e => simp [h1, h2] at hok
      | panic => simp [h1, h2] at hok
      | ok ps =>
        simp only [h1, h2] at hok
        injection hok with hp
        subst hp
        exact List.Forall₂.cons (buildPermission_ok api item p h1) (ih ps h2)

/-- C8 as stated fails: `CreateFolderPermission` accepts an
item that names no grantee and an item whose `role` is present and empty next
to `team_id = "5"`, and for both it sends an entry with no grantee field set
(in the second the claim expects the team id 5). -/
theorem entry_without_grantee_counterexample :
    (CreateFolderPermission exampleApi storingFolderClient [] folderDataNoGrantee).map
        (fun r => (r.calls, r.err)) =
      some ([.UpdateFolderPermission "12"
        [{ Role := "", TeamId := 0, UserId := 0, Permission := 1 },
         { Role := "", TeamId := 0, UserId := 0, Permission := 2 }]], none) := by
  decide

/-- C8, amended. For every replace-all call `UpdateFolderPermission(f, perms)`
that `CreateFolderPermission` issues, `f` is `folder_id` and `perms` has one
entry per item, in order; in each entry at most one of role, team id and user
id is set, and the fields are filled from the first of the keys `role`,
`team_id`, `user_id` that is present in the item: its value is copied (role) or
parsed as an integer (ids) and the other two fields are zero, so that no field
is set when that value is empty or zero or when no key is present. -/
theorem CreateFolderPermission_entries {P : Type} (api : PermissionApi P) (c : FolderClient P)
    (h : List (FolderCall P)) (d : FolderData) (r : Ret FolderData (FolderCall P))
    (f : String) (perms : List (FolderPermission P))
    (hrun : CreateFolderPermission api c h d = some r)
    (hcall : FolderCall.UpdateFolderPermission f perms ∈ r.calls) :
    f = d.folder_id ∧
    List.Forall₂ (fun item p => FirstPresentKey item p ∧ AtMostOneSet p) d.items perms := by
  unfold CreateFolderPermission at hrun
  cases hb : buildPermissions api d.items with
  | panic => simp [hb] at hrun
  | error e =>
    simp only [hb] at hrun
    injection hrun with hr
    subst hr
    simp at hcall
  | ok ps =>
    have hall := buildPermissions_ok api d.items ps hb
    simp only [hb] at hrun
    cases hu : c.UpdateFolderPermission h d.folder_id ps with
    | some e =>
      simp only [hu] at hrun
      injection hrun with hr
      subst hr
      simp only [List.mem_singleton] at hcall
      injection hcall with hf hp
      exact ⟨hf, hp ▸ hall⟩
    | none =>
      simp only [hu] at hrun
      injection hrun with hr
      subst hr
      simp only [List.mem_singleton] at hcall
      injection hcall with hf hp
      exact ⟨hf, hp ▸ hall⟩

theorem CreateFolderPermission_entries_witness :
    "12" = folderData12.folder_id ∧
    List.Forall₂ (fun item p => FirstPresentKey item p ∧ AtMostOneSet p) folderData12.items
      [({ Role := "Viewer", TeamId := 0, UserId := 0, Permission := 1 } : FolderPermission Int)] :=
  CreateFolderPermission_entries exampleApi storingFolderClient [] folderData12
    ⟨{ folderData12 with id := "12" },
      [.UpdateFolderPermission "12" [{ Role := "Viewer", TeamId := 0, UserId := 0, Permission := 1 }]],
      none⟩
    "12" [{ Role := "Viewer", TeamId := 0, UserId := 0, Permission := 1 }] rfl
    (List.mem_singleton.mpr rfl)

/-! ## Decimal strings -/

theorem digit_char (k : Nat) (hk : k < 10) :
    ('0' ≤ Char.ofNat (48 + k) ∧ Char.ofNat (48 + k) ≤ '9') ∧
    (Char.ofNat (48 + k)).toNat - '0'.toNat = k ∧
    Char.ofNat (48 + k) ≠ '+' ∧ Char.ofNat (48 + k) ≠ '-' := by
  interval_cases k <;> decide

theorem parseUintLoop_append (ds : List Char) (c : Char) (acc : Nat) :
    parseUintLoop (ds ++ [c]) acc =
      match parseUintLoop ds acc with
      | .ok m => parseUintLoop [c] m
      | .error e => .error e := by
  induction ds generalizing acc with
  | nil => simp [parseUintLoop]
  | cons a ds ih =>
    simp only [List.cons_append, parseUintLoop]
    split
    · split
      · rfl
      · split
        · rfl
        · exact ih _
    · rfl

theorem parseUintLoop_natDigits (fuel n : Nat) (hfuel : n < fuel) (hmax : n ≤ maxUint64) :
    parseUintLoop (natDigits fuel n) 0 = .ok n := by
  induction fuel generalizing n with
  | zero => omega
  | succ fuel ih =>
    unfold natDigits
    by_cases hn : n < 10
    · have hd := digit_char n hn
      simp only [hn, if_true, parseUintLoop, hd.1, hd.2.1, and_self]
      simp [maxUint64]
      omega
    · have hd := digit_char (n % 10) (Nat.mod_lt _ (by decide))
      simp only [hn, if_false, parseUintLoop_append]
      rw [ih (n / 10) (by omega) (by omega)]
      simp only [parseUintLoop, hd.1, hd.2.1, and_self, if_true]
      have h1 : ¬ (n / 10 ≥ maxUint64 / 10 + 1) := by
        simp only [maxUint64] at hmax ⊢
        omega
      have h2 : ¬ (n / 10 * 10 + n % 10 > maxUint64) := by omega
      simp only [h1, h2, if_false]
      congr 1
      omega

theorem natDigits_ne_sign (fuel n : Nat) :
    ∀ c ∈ natDigits fuel n, c ≠ '+' ∧ c ≠ '-' := by
  induction fuel generalizing n with
  | zero => simp [natDigits]
  | succ fuel ih =>
    intro c hc
    unfold natDigits at hc
    by_cases hn : n < 10
    · simp only [hn, if_true, List.mem_singleton] at hc
      rw [hc]
      exact (digit_char n hn).2.2
    · simp only [hn, if_false, List.mem_append, List.mem_singleton] at hc
      rcases hc with hc | hc
      · exact ih _ c hc
      · rw [hc]
        exact (digit_char (n % 10) (Nat.mod_lt _ (by decide))).2.2

theorem natDigits_ne_nil (fuel n : Nat) : natDigits (fuel + 1) n ≠ [] := by
  unfold natDigits
  by_cases hn : n < 10 <;> simp [hn]

theorem ParseUint_natDigits (n : Nat) (hmax : n ≤ maxUint64) :
    ParseUint (natDigits (n + 1) n) = (n, none) := by
  unfold ParseUint
  simp [natDigits_ne_nil, parseUintLoop_natDigits (n + 1) n (by omega) hmax]

theorem parseIntAs_FormatInt (fn : String) (i : Int)
    (hlo : -(2 : Int) ^ 63 ≤ i) (hhi : i < (2 : Int) ^ 63) :
    parseIntAs fn (FormatInt i) = (i, none) := by
  have hk : i.natAbs ≤ maxUint64 := by
    simp only [maxUint64]
    omega
  have hparse := ParseUint_natDigits i.natAbs hk
  unfold FormatInt
  by_cases hneg : i < 0
  · simp only [hneg, if_true, parseIntAs, hparse]
    have h1 : ¬ (9223372036854775808 < i.natAbs) := by omega
    simp [hparse, h1, abs_of_neg hneg]
  · simp only [hneg, if_false, parseIntAs]
    cases hds : natDigits (i.natAbs + 1) i.natAbs with
    | nil => exact absurd hds (natDigits_ne_nil _ _)
    | cons c cs =>
      have hc := natDigits_ne_sign (i.natAbs + 1) i.natAbs c (by rw [hds]; simp)
      simp only [hc.1, hc.2, or_self, if_false]
      rw [← hds, hparse]
      have h2 : (i.natAbs : Int) = i := by omega
      simp [h2]
      omega

/-! ## FolderPermission round trip -/

theorem buildPermission_round_trip {P : Type} (api : PermissionApi P) (item : Item) (p : P)
    (hitem : RoundTripItem api item p) :
    ∃ fp, buildPermission api item = .ok fp ∧ ReadsBack api item (readItem api fp) p := by
  obtain ⟨⟨s, n, hperm, hatoi, hnew⟩, hkey⟩ := hitem
  rcases hkey with ⟨role, hne, hrole, hteam, huser⟩ | ⟨t, hne, hlo, hhi, hrole, hteam, huser⟩ |
    ⟨u, hne, hlo, hhi, hrole, hteam, huser⟩
  · refine ⟨⟨role, 0, 0, p⟩, ?_, ?_⟩
    · simp [buildPermission, hrole, hperm, hatoi, hnew]
    · rw [ReadsBack, hrole, hteam, huser]
      simp [readItem, Item.set, Item.get, hne]
  · have hparse : Atoi (FormatInt t) = (t, none) := parseIntAs_FormatInt "Atoi" t hlo hhi
    refine ⟨⟨"", t, 0, p⟩, ?_, ?_⟩
    · simp [buildPermission, hrole, hteam, hparse, hperm, hatoi, hnew]
    · rw [ReadsBack, hrole, hteam, huser]
      simp [readItem, Item.set, Item.get, hne]
  · have hparse : Atoi (FormatInt u) = (u, none) := parseIntAs_FormatInt "Atoi" u hlo hhi
    refine ⟨⟨"", 0, u, p⟩, ?_, ?_⟩
    · simp [buildPermission, hrole, hteam, huser, hparse, hperm, hatoi, hnew]
    · rw [ReadsBack, hrole, hteam, huser]
      simp [readItem, Item.set, Item.get, hne]

theorem buildPermissions_round_trip {P : Type} (api : PermissionApi P) (items : List Item)
    (hitems : ∀ item ∈ items, ∃ p, RoundTripItem api item p) :
    ∃ perms, buildPermissions api items = .ok perms ∧
      List.Forall₂ (fun item item' => ∃ p, RoundTripItem api item p ∧ ReadsBack api item item' p)
        items (perms.map (readItem api)) := by
  induction items with
  | nil => exact ⟨[], rfl, List.Forall₂.nil⟩
  | cons item rest ih =>
    obtain ⟨p, hp⟩ := hitems item (List.mem_cons_self _ _)
    obtain ⟨fp, hfp, hback⟩ := buildPermission_round_trip api item p hp
    obtain ⟨perms, hperms, hall⟩ := ih (fun x hx => hitems x (List.mem_cons_of_mem _ hx))
    refine ⟨fp :: perms, ?_, ?_⟩
    · simp [buildPermissions, hfp, hperms]
    · exact List.Forall₂.cons ⟨p, hp, hback⟩ hall

/-- C2. Let every item of `items` carry a permission that is a decimal string
of a level accepted by `NewPermissionType` and exactly one of `role` (a
non-empty string), `team_id`, `user_id` (the canonical decimal string of a
non-zero 64-bit integer), and let the server accept a replacement and answer
the next fetch of that folder with the replaced list.  Then
`CreateFolderPermission` does not panic and returns no error, the following
`ReadFolderPermission` returns no error, and the items it stores correspond to
the original items one to one, in order: each has the same value under the
same grantee key, no other grantee key, and under `permission` the string form
of the original level. -/
theorem FolderPermission_items_round_trip {P : Type} (api : PermissionApi P)
    (c : FolderClient P) (h : List (FolderCall P)) (d : FolderData)
    (hitems : ∀ item ∈ d.items, ∃ p, RoundTripItem api item p)
    (hstore : ∀ l, c.UpdateFolderPermission h d.folder_id l = none ∧
      c.GetFolderPermission (h ++ [.UpdateFolderPermission d.folder_id l]) d.folder_id = .ok l) :
    ∃ r, CreateFolderPermission api c h d = some r ∧ r.err = none ∧
      (ReadFolderPermission api c (h ++ r.calls) r.d).err = none ∧
      List.Forall₂ (fun item item' => ∃ p, RoundTripItem api item p ∧ ReadsBack api item item' p)
        d.items (ReadFolderPermission api c (h ++ r.calls) r.d).d.items := by
  obtain ⟨perms, hperms, hall⟩ := buildPermissions_round_trip api d.items hitems
  refine ⟨⟨{ d with id := d.folder_id }, [.UpdateFolderPermission d.folder_id perms], none⟩,
    ?_, rfl, ?_, ?_⟩
  · simp [CreateFolderPermission, hperms, (hstore perms).1]
  · simp [ReadFolderPermission, (hstore perms).2]
  · simp only [ReadFolderPermission, (hstore perms).2]
    exact hall

theorem FolderPermission_items_round_trip_witness :
    ∃ r, CreateFolderPermission exampleApi storingFolderClient [] folderDataMixed = some r ∧
      r.err = none ∧
      (ReadFolderPermission exampleApi storingFolderClient ([] ++ r.calls) r.d).err = none ∧
      List.Forall₂
        (fun item item' => ∃ p, RoundTripItem exampleApi item p ∧ ReadsBack exampleApi item item' p)
        folderDataMixed.items
        (ReadFolderPermission exampleApi storingFolderClient ([] ++ r.calls) r.d).d.items :=
  FolderPermission_items_round_trip exampleApi storingFolderClient [] folderDataMixed
    (by
      intro item hmem
      simp only [folderDataMixed, List.mem_cons, List.mem_singleton, List.not_mem_nil,
        or_false] at hmem
      rcases hmem with h | h | h
      · subst h
        exact ⟨1, ⟨"1", 1, by decide, by decide, rfl⟩,
          Or.inl ⟨"Viewer", by decide, by decide, by decide, by decide⟩⟩
      · subst h
        exact ⟨2, ⟨"2", 2, by decide, by decide, rfl⟩,
          Or.inr (Or.inl ⟨5, by decide, by decide, by decide, by decide, by decide, by decide⟩)⟩
      · subst h
        exact ⟨4, ⟨"4", 4, by decide, by decide, rfl⟩,
          Or.inr (Or.inr ⟨-3, by decide, by decide, by decide, by decide, by decide, by decide⟩)⟩)
    (fun l => ⟨rfl, by simp [storingFolderClient]⟩)

/-- The round trip evaluated on a role item, a team item and a user item. -/
theorem FolderPermission_round_trip_example :
    (CreateFolderPermission exampleApi storingFolderClient [] folderDataMixed).map
        (fun r => (ReadFolderPermission exampleApi storingFolderClient r.calls r.d).d.items) =
      some [[("role", "Viewer"), ("permission", "1")],
            [("team_id", "5"), ("permission", "2")],
            [("user_id", "-3"), ("permission", "4")]] := by
  decide

/-! ## Dashboard client: responses that are not 2xx -/

/-- C11 as stated fails: on a "404 Not Found" response `SaveDashboard` returns
no result and an error whose message is built from the status code and the
body, which is not the status line of the response. -/
theorem SaveDashboard_error_message_counterexample :
    Client.SaveDashboard exampleCodec (respondingClient response404) [] false =
      (none, some ⟨"status: 404, body: Dashboard not found"⟩) ∧
    (Client.SaveDashboard exampleCodec (respondingClient response404) [] false).2 ≠
      some ⟨response404.Status⟩ := by
  constructor <;> decide

/-- C11, amended. Let `resp` be a response whose status code is not 2xx.  Each
of `NewDashboard`, `Dashboard`, `DashboardByUid`, `DashboardsByFolder`,
`HomeDashboard`, `DeleteDashboard` and `GetDashboardVersions`, when its request
is built and answered with `resp`, does not panic, returns no decoded result
(a `nil` pointer or slice) and returns an error whose message is the status
line `resp.Status`.  `SaveDashboard`, in the same situation, returns no decoded
result and an error whose message is "status: " followed by the decimal status
code, ", body: " and the bytes read from the body. -/
theorem dashboard_non_2xx_is_error (json : JsonCodec) (c : Client) (resp : Response)
    (hstatus : ¬ (200 ≤ resp.StatusCode ∧ resp.StatusCode < 300)) :
    (∀ model overwrite data req, json.MarshalWrapper model overwrite = .ok data →
      c.newRequest "POST" "/api/dashboards/db" [] (some data) = .ok req → c.Do req = .ok resp →
      Client.SaveDashboard json c model overwrite =
        (none, some ⟨"status: " ++ FormatInt resp.StatusCode ++ ", body: " ++ resp.Body.1⟩)) ∧
    (∀ dashboard data req, json.MarshalDashboard dashboard = .ok data →
      c.newRequest "POST" "/api/dashboards/db" [] (some data) = .ok req → c.Do req = .ok resp →
      Client.NewDashboard json c dashboard = (none, some ⟨resp.Status⟩)) ∧
    (∀ slug req, c.newRequest "GET" ("/api/dashboards/db/" ++ slug) [] none = .ok req →
      c.Do req = .ok resp →
      Client.Dashboard json c slug = some (none, some ⟨resp.Status⟩)) ∧
    (∀ uid req, c.newRequest "GET" ("/api/dashboards/uid/" ++ uid) [] none = .ok req →
      c.Do req = .ok resp →
      Client.DashboardByUid json c uid = some (none, some ⟨resp.Status⟩)) ∧
    (∀ folderId req,
      c.newRequest "GET" "/api/search"
        [("folderIds", FormatInt folderId), ("type", "dash-db")] none = .ok req →
      c.Do req = .ok resp →
      Client.DashboardsByFolder json c folderId = (none, some ⟨resp.Status⟩)) ∧
    (∀ req, c.newRequest "GET" "/api/dashboards/home" [] none = .ok req →
      c.Do req = .ok resp →
      Client.HomeDashboard json c = some (none, some ⟨resp.Status⟩)) ∧
    (∀ slug req, c.newRequest "DELETE" ("/api/dashboards/db/" ++ slug) [] none = .ok req →
      c.Do req = .ok resp →
      Client.DeleteDashboard c slug = some ⟨resp.Status⟩) ∧
    (∀ id req,
      c.newRequest "GET" ("/api/dashboards/id/" ++ FormatInt id ++ "/versions/") [] none
        = .ok req →
      c.Do req = .ok resp →
      Client.GetDashboardVersions json c id = (none, some ⟨resp.Status⟩)) := by
  have hne : resp.StatusCode ≠ 200 := by
    intro h200
    exact hstatus ⟨by omega, by omega⟩
  refine ⟨?_, ?_, ?_, ?_, ?_, ?_, ?_, ?_⟩
  · intro model overwrite data req hm hreq hdo
    simp [Client.SaveDashboard, hm, hreq, hdo, hne]
  · intro dashboard data req hm hreq hdo
    simp [Client.NewDashboard, hm, hreq, hdo, hne]
  · intro slug req hreq hdo
    simp [Client.Dashboard, hreq, hdo, hne]
  · intro uid req hreq hdo
    simp [Client.DashboardByUid, hreq, hdo, hne]
  · intro folderId req hreq hdo
    simp [Client.DashboardsByFolder, hreq, hdo, hne]
  · intro req hreq hdo
    simp [Client.HomeDashboard, hreq, hdo, hne]
  · intro slug req hreq hdo
    simp [Client.DeleteDashboard, hreq, hdo, hne]
  · intro id req hreq hdo
    simp [Client.GetDashboardVersions, hreq, hdo, hne]

theorem dashboard_non_2xx_is_error_witness :
    ¬ (200 ≤ response404.StatusCode ∧ response404.StatusCode < 300) ∧
    Client.Dashboard exampleCodec (respondingClient response404) "ops" =
      some (none, some ⟨"404 Not Found"⟩) ∧
    Client.DeleteDashboard (respondingClient response404) "ops" = some ⟨"404 Not Found"⟩ ∧
    Client.GetDashboardVersions exampleCodec (respondingClient response404) 7 =
      (none, some ⟨"404 Not Found"⟩) :=
  ⟨by decide,
   (dashboard_non_2xx_is_error exampleCodec (respondingClient response404) response404
      (by decide)).2.2.1 "ops" _ rfl rfl,
   (dashboard_non_2xx_is_error exampleCodec (respondingClient response404) response404
      (by decide)).2.2.2.2.2.2.1 "ops" _ rfl rfl,
   (dashboard_non_2xx_is_error exampleCodec (respondingClient response404) response404
      (by decide)).2.2.2.2.2.2.2 7 _ rfl rfl⟩

/-- A response with status 201, which is 2xx, is an error for the dashboard
client as well: only the status code 200 is taken as success. -/
theorem NewDashboard_201_is_error :
    Client.NewDashboard exampleCodec (respondingClient response201)
        ⟨⟨false, "", "", 0⟩, [], 0, false⟩ = (none, some ⟨"201 Created"⟩) := by
  decide

end Grafana
